import Mathlib

/-!
Verification of the satori video SDK bot instance (`src/bot_instance.cpp`)
and the RTM channel-position codec (`src/rtm_client.h`).

The C++ code is shallowly embedded: `nlohmann::json` values become the
inductive `Json`, the mutable `bot_instance` members become the record
`bot_instance_state`, and every member function that can hit a fatal
`CHECK`/`ABORT` returns an `Option` (`none` models process abort).
Prometheus metric updates are pure side effects with no observable value
in the data flow and are not modelled.
-/

/-- Model of `nlohmann::json` values (object fields as an association list). -/
inductive Json where
  | null : Json
  | bool (b : Bool) : Json
  | num (n : Int) : Json
  | str (s : String) : Json
  | arr (elems : List Json) : Json
  | obj (fields : List (String × Json)) : Json

/-- Model of `json::is_object()`. -/
def Json.is_object : Json → Bool
  | Json.obj _ => true
  | _ => false

/-- Model of `json::is_array()`. -/
def Json.is_array : Json → Bool
  | Json.arr _ => true
  | _ => false

/-- Model of `json::is_null()`. -/
def Json.is_null : Json → Bool
  | Json.null => true
  | _ => false

/-- Association-list lookup used by `Json.find`. -/
def lookupField (key : String) : List (String × Json) → Option Json
  | [] => none
  | (k, v) :: rest => if k = key then some v else lookupField key rest

/-- Model of `json::find(key)`: `some` iff the iterator differs from `end()`.
On non-objects nlohmann returns `end()`, modelled as `none`. -/
def Json.find (j : Json) (key : String) : Option Json :=
  match j with
  | Json.obj fields => lookupField key fields
  | _ => none

/-- Replace the value of `key` in place, or append the binding. -/
def setAssoc (key : String) (v : Json) : List (String × Json) → List (String × Json)
  | [] => [(key, v)]
  | (k, w) :: rest => if k = key then (k, v) :: rest else (k, w) :: setAssoc key v rest

/-- Model of `json[key] = v` on an object (the code always guards with
`is_object` via `CHECK` before assigning, so non-objects are unreachable
and left unchanged). -/
def Json.set (j : Json) (key : String) (v : Json) : Json :=
  match j with
  | Json.obj fields => Json.obj (setAssoc key v fields)
  | other => other

/-- Model of nlohmann `json == std::string`: true exactly when the json value
is a string with the same contents. -/
def Json.eqString (j : Json) (s : String) : Bool :=
  match j with
  | Json.str t => t = s
  | _ => false

/-- Frame identifier `(i1, i2)` (two `int64_t`s in the source). -/
structure frame_id where
  i1 : Int
  i2 : Int
deriving DecidableEq, Repr

/-- Kinds of outbound bot messages. -/
inductive bot_message_kind where
  | ANALYSIS : bot_message_kind
  | DEBUG : bot_message_kind
  | CONTROL : bot_message_kind
deriving DecidableEq, Repr

/-- Modelled from the spec: the `bot_message` struct (`data`, `kind`,
`frame_id`), declared in `bot_instance.h` which is not part of the sources. -/
structure bot_message where
  data : Json
  kind : bot_message_kind
  id : frame_id

/-- Modelled from the spec: image metadata (`width`, `height`,
`plane_strides`), declared outside the given sources. -/
structure image_metadata where
  width : Nat
  height : Nat
  plane_strides : List Nat
deriving DecidableEq, Repr

/-- Modelled from the spec: an owned image frame (id, geometry, owned plane
byte buffers). -/
structure owned_image_frame where
  id : frame_id
  width : Nat
  height : Nat
  plane_strides : List Nat
  plane_data : List (List Nat)
deriving DecidableEq, Repr

/-- Modelled from the spec: the non-frame alternative of an owned image
packet (stream metadata announcing codec parameters). -/
structure owned_image_metadata where
  codec_name : String
  extra_data : List Nat
deriving DecidableEq, Repr

/-- Modelled from the spec: `owned_image_packet`, the sum of stream metadata
and an owned image frame. -/
inductive owned_image_packet where
  | metadata (m : owned_image_metadata) : owned_image_packet
  | frame (f : owned_image_frame) : owned_image_packet
deriving DecidableEq, Repr

/-- The borrowed frame view handed to the image callback: the frame id plus
one plane pointer per plane, null (`none`) exactly for empty planes. -/
structure image_frame where
  id : frame_id
  plane_data : List (Option (List Nat))
deriving DecidableEq, Repr

/-- `bot_output`: an owned image packet alternative or a bot message. -/
inductive bot_output where
  | metadata (m : owned_image_metadata) : bot_output
  | frame (f : owned_image_frame) : bot_output
  | message (m : bot_message) : bot_output

/-- The mutable state of a `bot_instance`: `_bot_id`, `_image_metadata`,
`_message_buffer` and `_current_frame_id`. -/
structure bot_instance_state where
  bot_id : String
  image_metadata : image_metadata
  message_buffer : List bot_message
  current_frame_id : frame_id

/-- An image callback is characterised by the `queue_message` calls it makes
for a given frame span: each call is a `(kind, data, id)` triple. -/
def image_callback : Type := List image_frame → List (bot_message_kind × Json × frame_id)

/-- A control callback maps the inbound command to a response. -/
def control_callback : Type := Json → Json

/-- `bot_instance::queue_message` (bot_instance.cpp:120-133): `CHECK` that the
message is an object (fatal otherwise), substitute `_current_frame_id` when
the caller passed `(0,0)` and both components of the current id are nonzero,
and append to `_message_buffer`. -/
def queue_message (st : bot_instance_state) (kind : bot_message_kind)
    (message : Json) (id : frame_id) : Option bot_instance_state :=
  if ¬ message.is_object then none
  else
    let effective_frame_id :=
      if id.i1 = 0 ∧ id.i2 = 0 ∧ st.current_frame_id.i1 ≠ 0 ∧ st.current_frame_id.i2 ≠ 0
      then st.current_frame_id
      else id
    some { st with
           message_buffer := st.message_buffer ++ [⟨message, kind, effective_frame_id⟩] }

/-- `bot_instance::set_current_frame_id` (bot_instance.cpp:135). -/
def set_current_frame_id (st : bot_instance_state) (id : frame_id) : bot_instance_state :=
  { st with current_frame_id := id }

/-- The body of the loop in `prepare_message_buffer_for_downstream`
(bot_instance.cpp:242-266) for a single buffered message: `CHECK` the data is
an object (fatal otherwise), set `"i" = [i1, i2]` when `id.i1 >= 0`, then set
`"from" = bot_id` when the bot id is non-empty. -/
def stamp_message (bid : String) (m : bot_message) : Option bot_message :=
  if ¬ m.data.is_object then none
  else
    let d1 := if m.id.i1 ≥ 0
              then m.data.set "i" (Json.arr [Json.num m.id.i1, Json.num m.id.i2])
              else m.data
    let d2 := if bid ≠ "" then d1.set "from" (Json.str bid) else d1
    some { m with data := d2 }

/-- Stamp every message of the buffer in order, aborting at the first fatal
`CHECK`. -/
def stamp_all (bid : String) : List bot_message → Option (List bot_message)
  | [] => some []
  | m :: rest =>
    match stamp_message bid m with
    | none => none
    | some m' =>
      match stamp_all bid rest with
      | none => none
      | some rest' => some (m' :: rest')

/-- `bot_instance::prepare_message_buffer_for_downstream`
(bot_instance.cpp:242-266): stamp every buffered message in place. -/
def prepare_message_buffer_for_downstream (st : bot_instance_state) :
    Option bot_instance_state :=
  match stamp_all st.bot_id st.message_buffer with
  | none => none
  | some buf => some { st with message_buffer := buf }

/-- Conversion of an owned frame to the borrowed `image_frame` view handed to
the callback (bot_instance.cpp:159-167): plane pointers are null exactly for
empty planes. -/
def to_image_frame (f : owned_image_frame) : image_frame :=
  ⟨f.id, f.plane_data.map (fun d => if d.isEmpty then none else some d)⟩

/-- `bot_instance::extract_frames` (bot_instance.cpp:137-171), with the
mutation of `_image_metadata` made explicit: skip non-frame elements; for a
frame whose geometry differs from the metadata, `CHECK` that the metadata is
still unset (`width == 0`, fatal otherwise) and latch width, height and plane
strides; convert each frame to its borrowed view. -/
def extract_frames (meta : image_metadata) :
    List bot_output → Option (image_metadata × List image_frame)
  | [] => some (meta, [])
  | p :: rest =>
    match p with
    | bot_output.frame f =>
      if f.width ≠ meta.width ∨ f.height ≠ meta.height then
        if meta.width = 0 then
          match extract_frames ⟨f.width, f.height, f.plane_strides⟩ rest with
          | none => none
          | some (meta', bfs) => some (meta', to_image_frame f :: bfs)
        else none
      else
        match extract_frames meta rest with
        | none => none
        | some (meta', bfs) => some (meta', to_image_frame f :: bfs)
    | _ => extract_frames meta rest

/-- Conversion performed by `result.emplace_back(pp.front())`
(bot_instance.cpp:179-182): an owned image packet becomes a `bot_output`. -/
def packet_to_output : owned_image_packet → bot_output
  | owned_image_packet.metadata m => bot_output.metadata m
  | owned_image_packet.frame f => bot_output.frame f

/-- Replay of the image callback's `queue_message` calls against the state. -/
def apply_queue_calls (st : bot_instance_state) :
    List (bot_message_kind × Json × frame_id) → Option bot_instance_state
  | [] => some st
  | c :: rest =>
    match queue_message st c.1 c.2.1 c.2.2 with
    | none => none
    | some st1 => apply_queue_calls st1 rest

/-- `bot_instance::operator()(std::queue<owned_image_packet>&)`
(bot_instance.cpp:173-201): move the batch into the output list, extract the
image frames, and if any frame was extracted dispatch the image callback,
stamp the buffered messages and append them to the output, clearing the
buffer. -/
def process_packets (img : image_callback) (st : bot_instance_state)
    (pp : List owned_image_packet) : Option (bot_instance_state × List bot_output) :=
  let result := pp.map packet_to_output
  match extract_frames st.image_metadata result with
  | none => none
  | some (meta', bframes) =>
    let st1 := { st with image_metadata := meta' }
    if bframes.isEmpty then some (st1, result)
    else
      match apply_queue_calls st1 (img bframes) with
      | none => none
      | some st2 =>
        match prepare_message_buffer_for_downstream st2 with
        | none => none
        | some st3 =>
          some ({ st3 with message_buffer := [] },
                result ++ st3.message_buffer.map bot_output.message)

/-- The non-array branch of `bot_instance::operator()(nlohmann::json&)`
(bot_instance.cpp:213-239): drop non-objects and objects without `"to"`; drop
when the bot id is empty or `"to"` differs from it; otherwise invoke the
control callback (a null `std::function` would crash, modelled as abort), and
for a non-null response `CHECK` it is an object, copy the inbound
`request_id` when present, and queue it as `CONTROL`; finally stamp the
buffer, emit it and clear it (via `drain_and_emit` below). -/
def drain_and_emit (st : bot_instance_state) :
    Option (bot_instance_state × List bot_output) :=
  match prepare_message_buffer_for_downstream st with
  | none => none
  | some st3 =>
    some ({ st3 with message_buffer := [] },
          st3.message_buffer.map bot_output.message)

def process_control_single (ctrl : Option control_callback)
    (st : bot_instance_state) (msg : Json) :
    Option (bot_instance_state × List bot_output) :=
  if ¬ msg.is_object ∨ (msg.find "to").isNone then some (st, [])
  else if st.bot_id = "" ∨ ¬ ((msg.find "to").getD Json.null).eqString st.bot_id then
    some (st, [])
  else
    match ctrl with
    | none => none
    | some f =>
      let response := f msg
      let afterQueue : Option bot_instance_state :=
        if response.is_null then some st
        else if ¬ response.is_object then none
        else
          let response2 :=
            match msg.find "request_id" with
            | some rid => response.set "request_id" rid
            | none => response
          queue_message st bot_message_kind.CONTROL response2 ⟨0, 0⟩
      match afterQueue with
      | none => none
      | some st2 => drain_and_emit st2

mutual

/-- `bot_instance::operator()(nlohmann::json&)` (bot_instance.cpp:203-240):
arrays are handled element-wise with the outputs concatenated; everything
else goes through the single-message branch. -/
def process_control (ctrl : Option control_callback) (st : bot_instance_state) :
    Json → Option (bot_instance_state × List bot_output)
  | Json.arr elems => process_control_array ctrl st elems
  | msg => process_control_single ctrl st msg

/-- The element-wise recursion over a control array (bot_instance.cpp:205-211),
threading the state and splicing the outputs. -/
def process_control_array (ctrl : Option control_callback)
    (st : bot_instance_state) :
    List Json → Option (bot_instance_state × List bot_output)
  | [] => some (st, [])
  | m :: rest =>
    match process_control ctrl st m with
    | none => none
    | some (st1, out1) =>
      match process_control_array ctrl st1 rest with
      | none => none
      | some (st2, out2) => some (st2, out1 ++ out2)

end

/-- `bot_input`: a batch of owned encoded packets or a control message. -/
inductive bot_input where
  | packets (pp : List owned_image_packet) : bot_input
  | message (msg : Json) : bot_input

/-- The `boost::apply_visitor(*this, p)` dispatch inside `run_bot`
(bot_instance.cpp:80). -/
def process_input (img : image_callback) (ctrl : Option control_callback)
    (st : bot_instance_state) :
    bot_input → Option (bot_instance_state × List bot_output)
  | bot_input.packets pp => process_packets img st pp
  | bot_input.message msg => process_control ctrl st msg

/-- The main stream of `run_bot`: `map` the visitor over the inputs and
`flatten` the per-input output lists (bot_instance.cpp:78-81). -/
def process_inputs (img : image_callback) (ctrl : Option control_callback) :
    List bot_input → bot_instance_state →
    Option (bot_instance_state × List bot_output)
  | [], st => some (st, [])
  | i :: rest, st =>
    match process_input img ctrl st i with
    | none => none
    | some (st1, out1) =>
      match process_inputs img ctrl rest st1 with
      | none => none
      | some (st2, out2) => some (st2, out1 ++ out2)

/-- `build_shutdown_command` (bot_instance.cpp:43-46). -/
def build_shutdown_command : Json := Json.obj [("action", Json.str "shutdown")]

/-- `build_configure_command` (bot_instance.cpp:36-41): an object with
`"action" = "configure"` and `"body"` set to the given configuration. -/
def build_configure_command (config : Json) : Json :=
  Json.obj [("action", Json.str "configure"), ("body", config)]

/-- The init lambda of the shutdown generator (bot_instance.cpp:85-101): when
a control callback exists, dispatch `{action: "shutdown"}` and queue a
non-null response as DEBUG; then stamp the message buffer. -/
def shutdown_init (ctrl : Option control_callback) (st : bot_instance_state) :
    Option bot_instance_state :=
  match ctrl with
  | none => prepare_message_buffer_for_downstream st
  | some f =>
    let response := f build_shutdown_command
    if response.is_null then prepare_message_buffer_for_downstream st
    else
      match queue_message st bot_message_kind.DEBUG response ⟨0, 0⟩ with
      | none => none
      | some st1 => prepare_message_buffer_for_downstream st1

/-- The pump lambda of the shutdown generator (bot_instance.cpp:102-113): on
an empty buffer signal completion (`none`); otherwise pop the front message
and emit it. -/
def shutdown_pump (st : bot_instance_state) :
    Option (bot_output × bot_instance_state) :=
  match st.message_buffer with
  | [] => none
  | msg :: rest => some (bot_output.message msg, { st with message_buffer := rest })

/-- Iterated pulls of the shutdown generator: pump until completion, returning
the emitted elements and the final state. One pull removes one buffered
message, so `length` of the buffer bounds the number of pulls needed. -/
def generator_run_aux : Nat → bot_instance_state →
    List bot_output × bot_instance_state
  | 0, st => ([], st)
  | fuel + 1, st =>
    match shutdown_pump st with
    | none => ([], st)
    | some (out, st') =>
      let r := generator_run_aux fuel st'
      (out :: r.1, r.2)

/-- All emissions of the shutdown generator after its init has run. -/
def generator_run (st : bot_instance_state) : List bot_output × bot_instance_state :=
  generator_run_aux st.message_buffer.length st

/-- `bot_instance::run_bot` (bot_instance.cpp:76-118): the output publisher is
the concatenation of the main stream (visitor-mapped and flattened) and the
stateful shutdown generator. -/
def run_bot (img : image_callback) (ctrl : Option control_callback)
    (inputs : List bot_input) (st : bot_instance_state) : Option (List bot_output) :=
  match process_inputs img ctrl inputs st with
  | none => none
  | some (st1, main_out) =>
    match shutdown_init ctrl st1 with
    | none => none
    | some st2 => some (main_out ++ (generator_run st2).1)

/-- `bot_instance::configure` (bot_instance.cpp:268-284): without a control
callback, a null configuration is a no-op and a non-null one aborts; with a
callback, dispatch `{action: "configure", body: <cfg or {}>}` and queue a
non-null response as DEBUG. -/
def configure (ctrl : Option control_callback) (config : Json)
    (st : bot_instance_state) : Option bot_instance_state :=
  match ctrl with
  | none => if config.is_null then some st else none
  | some f =>
    let cmd := build_configure_command
      (if ¬ config.is_null then config else Json.obj [])
    let response := f cmd
    if response.is_null then some st
    else queue_message st bot_message_kind.DEBUG response ⟨0, 0⟩

/-- C `isspace` in the default locale (the characters `strtoll` skips). -/
def cIsSpace (c : Char) : Bool :=
  c = ' ' ∨ c = '\t' ∨ c = '\n' ∨ c = Char.ofNat 11 ∨ c = Char.ofNat 12 ∨ c = '\r'

/-- The character read through a `char*`: the head of the remaining input, or
the NUL terminator at the end of the string. -/
def headChar (l : List Char) : Char := l.headD (Char.ofNat 0)

/-- The optional sign accepted by `strtoll`/`strtoull`; returns the
negativity flag and the remaining input. -/
def stripSign (l : List Char) : Bool × List Char :=
  match l with
  | [] => (false, [])
  | c :: t =>
    if c = '-' then (true, t)
    else if c = '+' then (false, t)
    else (false, l)

/-- Value of a base-10 digit string. -/
def digitsToNat (ds : List Char) : Nat :=
  ds.foldl (fun a c => a * 10 + (c.toNat - 48)) 0

/-- Result of the common scanning phase of `strtoll`/`strtoull`: magnitude,
sign, remaining input, and whether any conversion was performed (when not,
`endptr` is reset to the original input per the C standard). -/
structure scan_result where
  magnitude : Nat
  neg : Bool
  rest : List Char
  converted : Bool

/-- The scanning phase shared by `strtoll` and `strtoull` (base 10): skip
whitespace, accept an optional sign, consume digits. -/
def scanInteger (s : List Char) : scan_result :=
  let afterSpace := s.dropWhile cIsSpace
  let signed := stripSign afterSpace
  let ds := signed.2.takeWhile Char.isDigit
  let rest := signed.2.dropWhile Char.isDigit
  if ds.isEmpty then ⟨0, false, s, false⟩
  else ⟨digitsToNat ds, signed.1, rest, true⟩

/-- `strtoll(s, &endptr, 10)`: the scanned value clamped to the `long long`
range (the callers never check `errno`). -/
def strtoll (s : List Char) : Int × List Char × Bool :=
  let r := scanInteger s
  let v : Int :=
    if r.neg then
      if r.magnitude ≥ 2 ^ 63 then -(2 ^ 63) else -(r.magnitude : Int)
    else if r.magnitude ≥ 2 ^ 63 then 2 ^ 63 - 1
    else (r.magnitude : Int)
  (v, r.rest, r.converted)

/-- `strtoull(s, &endptr, 10)`: out-of-range magnitudes clamp to
`ULLONG_MAX`; an in-range negated value wraps in unsigned arithmetic. -/
def strtoull (s : List Char) : Nat × List Char × Bool :=
  let r := scanInteger s
  let v : Nat :=
    if r.magnitude > 2 ^ 64 - 1 then 2 ^ 64 - 1
    else if r.neg then (2 ^ 64 - r.magnitude) % 2 ^ 64
    else r.magnitude
  (v, r.rest, r.converted)

/-- `rtm::channel_position` (rtm_client.h:43-63): a 32-bit generation and a
64-bit position. -/
structure channel_position where
  gen : Nat
  pos : Nat
deriving DecidableEq, Repr

/-- Decimal digits of `n` (the rendering used by `std::to_string` on unsigned
integers), via fuel; `n + 1` units of fuel always suffice. -/
def natDigitsAux : Nat → Nat → List Char
  | 0, _ => []
  | fuel + 1, n =>
    if n < 10 then [Char.ofNat (48 + n % 10)]
    else natDigitsAux fuel (n / 10) ++ [Char.ofNat (48 + n % 10)]

/-- Decimal rendering of a natural number, as `std::to_string` produces. -/
def natDigits (n : Nat) : List Char := natDigitsAux (n + 1) n

/-- `channel_position::str()` (rtm_client.h:47):
`to_string(gen) + ":" + to_string(pos)`. -/
def channel_position.str (p : channel_position) : List Char :=
  natDigits p.gen ++ ':' :: natDigits p.pos

/-- `channel_position::parse` (rtm_client.h:49-62): `strtoll` the generation,
`CHECK_LE` it against `uint32` max (fatal on overflow, modelled as `none`),
return `(0,0)` when nothing was converted or the next character is not `':'`,
then `strtoull` the position after the colon and return `(0,0)` unless the
string is exhausted; the generation is cast to `uint32_t`.  The
`str_pos == nullptr` tests are vacuous (`strtoll` always sets a non-null
`endptr` here) and the `CHECK_LE(pos, uint64 max)` always holds. -/
def channel_position.parse (s : List Char) : Option channel_position :=
  let r1 := strtoll s
  if ¬ (r1.1 ≤ 4294967295) then none
  else if ¬ r1.2.2 then some ⟨0, 0⟩
  else if headChar r1.2.1 ≠ ':' then some ⟨0, 0⟩
  else
    let r2 := strtoull (r1.2.1.drop 1)
    let endp := if r2.2.2 then r2.2.1 else r1.2.1.drop 1
    if headChar endp ≠ Char.ofNat 0 then some ⟨0, 0⟩
    else some ⟨(r1.1 % (2 ^ 32 : Int)).toNat, r2.1⟩

/-! Helper lemmas about `Json` field access. -/

theorem lookupField_setAssoc_same (key : String) (v : Json) :
    ∀ fs, lookupField key (setAssoc key v fs) = some v := by
  intro fs
  induction fs with
  | nil => simp [setAssoc, lookupField]
  | cons kv rest ih =>
    obtain ⟨k, w⟩ := kv
    by_cases hk : k = key
    · simp [setAssoc, hk, lookupField]
    · simp [setAssoc, hk, lookupField, ih]

theorem lookupField_setAssoc_other (key key' : String) (v : Json)
    (hne : key' ≠ key) :
    ∀ fs, lookupField key' (setAssoc key v fs) = lookupField key' fs := by
  intro fs
  have hsym : ¬ key = key' := fun h => hne h.symm
  induction fs with
  | nil => simp [setAssoc, lookupField, hsym]
  | cons kv rest ih =>
    obtain ⟨k, w⟩ := kv
    by_cases hk : k = key
    · subst hk
      simp [setAssoc, lookupField, hsym]
    · simp [setAssoc, hk, lookupField, ih]

theorem Json.find_set_same (j : Json) (key : String) (v : Json)
    (h : j.is_object = true) : (j.set key v).find key = some v := by
  cases j <;> simp_all [Json.is_object, Json.set, Json.find,
    lookupField_setAssoc_same]

theorem Json.find_set_other (j : Json) (key key' : String) (v : Json)
    (hne : key' ≠ key) : (j.set key v).find key' = j.find key' := by
  cases j <;> simp_all [Json.set, Json.find, lookupField_setAssoc_other]

theorem Json.is_object_set (j : Json) (key : String) (v : Json) :
    (j.set key v).is_object = j.is_object := by
  cases j <;> simp [Json.set, Json.is_object]

/-! Helper lemmas about message stamping. -/

theorem stamp_message_eq_none (bid : String) (m : bot_message) :
    stamp_message bid m = none ↔ m.data.is_object = false := by
  by_cases h : m.data.is_object <;> simp [stamp_message, h]

theorem stamp_message_spec (bid : String) (m m' : bot_message)
    (h : stamp_message bid m = some m') :
    m'.kind = m.kind ∧ m'.id = m.id ∧ m.data.is_object = true ∧
    (m.id.i1 ≥ 0 →
      m'.data.find "i" = some (Json.arr [Json.num m.id.i1, Json.num m.id.i2])) ∧
    (bid ≠ "" → m'.data.find "from" = some (Json.str bid)) := by
  by_cases hobj : m.data.is_object
  · simp only [stamp_message, hobj, not_true, if_false, Option.some.injEq] at h
    subst h
    refine ⟨rfl, rfl, hobj, ?_, ?_⟩
    · intro hi
      by_cases hb : bid = ""
      · simp [hb, hi, Json.find_set_same, hobj]
      · have hobj1 : (m.data.set "i"
            (Json.arr [Json.num m.id.i1, Json.num m.id.i2])).is_object = true := by
          rw [Json.is_object_set]; exact hobj
        simp only [hi, ge_iff_le, if_true, hb, ne_eq, not_false_iff, if_pos]
        rw [Json.find_set_other _ _ _ _ (by decide)]
        simp [hi, Json.find_set_same, hobj]
    · intro hb
      by_cases hi : m.id.i1 ≥ 0
      · have hobj1 : (m.data.set "i"
            (Json.arr [Json.num m.id.i1, Json.num m.id.i2])).is_object = true := by
          rw [Json.is_object_set]; exact hobj
        simp [hi, hb, Json.find_set_same, hobj1]
      · simp [hi, hb, Json.find_set_same, hobj]
  · simp [stamp_message, hobj] at h

theorem stamp_all_eq_none (bid : String) (l : List bot_message)
    (h : ∃ m ∈ l, m.data.is_object = false) : stamp_all bid l = none := by
  induction l with
  | nil => simp at h
  | cons m rest ih =>
    obtain ⟨m0, hm0, hbad⟩ := h
    rcases List.mem_cons.mp hm0 with rfl | hmem
    · simp [stamp_all, (stamp_message_eq_none bid m0).mpr hbad]
    · cases hsm : stamp_message bid m with
      | none => simp [stamp_all, hsm]
      | some m' => simp [stamp_all, hsm, ih ⟨m0, hmem, hbad⟩]

theorem stamp_all_forall₂ (bid : String) :
    ∀ l l', stamp_all bid l = some l' →
      List.Forall₂ (fun m m' => stamp_message bid m = some m') l l' := by
  intro l
  induction l with
  | nil =>
    intro l' h
    simp only [stamp_all, Option.some.injEq] at h
    subst h
    exact List.Forall₂.nil
  | cons m rest ih =>
    intro l' h
    cases hsm : stamp_message bid m with
    | none => simp [stamp_all, hsm] at h
    | some m' =>
      cases hrest : stamp_all bid rest with
      | none => simp [stamp_all, hsm, hrest] at h
      | some rest' =>
        simp only [stamp_all, hsm, hrest, Option.some.injEq] at h
        subst h
        exact List.Forall₂.cons hsm (ih rest' hrest)

/-- Claim C1: when the bot instance drains its message buffer for downstream
emission, every buffered message is stamped: a non-object `data` is fatal;
when `frame_id.i1 >= 0` the field `"i"` is set to `[i1, i2]`; when `bot_id`
is non-empty the field `"from"` is set to `bot_id`.  Consequently every
drained message (of any kind) carries `data.from == bot_id` when `bot_id` is
non-empty and `data.i == [i1, i2]` when the originating id had `i1 >= 0`. -/
theorem prepare_message_buffer_stamps (st : bot_instance_state) :
    ((∃ m ∈ st.message_buffer, m.data.is_object = false) →
      prepare_message_buffer_for_downstream st = none)
    ∧ (∀ st', prepare_message_buffer_for_downstream st = some st' →
        st'.bot_id = st.bot_id ∧
        List.Forall₂ (fun m m' =>
          m'.kind = m.kind ∧ m'.id = m.id ∧ m.data.is_object = true ∧
          (m.id.i1 ≥ 0 →
            m'.data.find "i" =
              some (Json.arr [Json.num m.id.i1, Json.num m.id.i2])) ∧
          (st.bot_id ≠ "" → m'.data.find "from" = some (Json.str st.bot_id)))
          st.message_buffer st'.message_buffer) := by
  constructor
  · intro hbad
    simp [prepare_message_buffer_for_downstream,
      stamp_all_eq_none st.bot_id st.message_buffer hbad]
  · intro st' h
    cases hall : stamp_all st.bot_id st.message_buffer with
    | none => simp [prepare_message_buffer_for_downstream, hall] at h
    | some buf =>
      simp only [prepare_message_buffer_for_downstream, hall,
        Option.some.injEq] at h
      subst h
      refine ⟨rfl, ?_⟩
      have h2 := stamp_all_forall₂ st.bot_id st.message_buffer buf hall
      exact List.Forall₂.imp
        (fun m m' hsm => stamp_message_spec st.bot_id m m' hsm) h2

/-- Witness for C1: the fatal branch on a buffered non-object, and the
stamped fields of a concrete ANALYSIS message for bot `"b1"` at frame
`(3, 4)`. -/
theorem prepare_message_buffer_stamps_witness :
    prepare_message_buffer_for_downstream
      ⟨"b1", ⟨0, 0, []⟩, [⟨Json.num 7, bot_message_kind.ANALYSIS, ⟨0, 0⟩⟩], ⟨0, 0⟩⟩
      = none
    ∧ List.Forall₂ (fun (m m' : bot_message) =>
        m'.kind = m.kind ∧ m'.id = m.id ∧ m.data.is_object = true ∧
        (m.id.i1 ≥ 0 →
          m'.data.find "i" =
            some (Json.arr [Json.num m.id.i1, Json.num m.id.i2])) ∧
        ((("b1" : String)) ≠ "" → m'.data.find "from" = some (Json.str "b1")))
        [⟨Json.obj [], bot_message_kind.ANALYSIS, ⟨3, 4⟩⟩]
        [⟨Json.obj [("i", Json.arr [Json.num 3, Json.num 4]),
                    ("from", Json.str "b1")],
          bot_message_kind.ANALYSIS, ⟨3, 4⟩⟩] := by
  constructor
  · exact (prepare_message_buffer_stamps
      ⟨"b1", ⟨0, 0, []⟩, [⟨Json.num 7, bot_message_kind.ANALYSIS, ⟨0, 0⟩⟩], ⟨0, 0⟩⟩).1
      ⟨⟨Json.num 7, bot_message_kind.ANALYSIS, ⟨0, 0⟩⟩, by simp, by decide⟩
  · exact ((prepare_message_buffer_stamps
      ⟨"b1", ⟨0, 0, []⟩, [⟨Json.obj [], bot_message_kind.ANALYSIS, ⟨3, 4⟩⟩], ⟨0, 0⟩⟩).2
      ⟨"b1", ⟨0, 0, []⟩,
        [⟨Json.obj [("i", Json.arr [Json.num 3, Json.num 4]),
                    ("from", Json.str "b1")],
          bot_message_kind.ANALYSIS, ⟨3, 4⟩⟩], ⟨0, 0⟩⟩ rfl).2

/-- Counterexample for C3: the claim substitutes `current_frame_id` whenever
the caller passes `(0,0)` and `current_frame_id ≠ (0,0)`; but with
`current_frame_id = (5,0)` (second component zero) the code keeps the passed
`(0,0)` verbatim, not `(5,0)`. -/
theorem queue_message_zero_component_counterexample :
    (queue_message ⟨"b1", ⟨0, 0, []⟩, [], ⟨5, 0⟩⟩ bot_message_kind.ANALYSIS
        (Json.obj []) ⟨0, 0⟩).map (fun s => s.message_buffer.map (fun m => m.id))
      = some [⟨0, 0⟩]
    ∧ (⟨0, 0⟩ : frame_id) ≠ ⟨5, 0⟩ := by
  exact ⟨by decide, by decide⟩

/-- Claim C3 (amended): `queue_message(kind, data, id)` substitutes
`current_frame_id` exactly when the caller passes `id == (0,0)` and both
components of `current_frame_id` are nonzero; in every other case — including
a `current_frame_id` with exactly one zero component — the passed id is used
verbatim. -/
theorem queue_message_substitution (st : bot_instance_state)
    (kind : bot_message_kind) (data : Json) (id : frame_id)
    (hobj : data.is_object = true) :
    (id = ⟨0, 0⟩ → st.current_frame_id.i1 ≠ 0 → st.current_frame_id.i2 ≠ 0 →
      queue_message st kind data id =
        some { st with message_buffer :=
                st.message_buffer ++ [⟨data, kind, st.current_frame_id⟩] })
    ∧ ((id ≠ ⟨0, 0⟩ ∨ st.current_frame_id.i1 = 0 ∨ st.current_frame_id.i2 = 0) →
      queue_message st kind data id =
        some { st with message_buffer := st.message_buffer ++ [⟨data, kind, id⟩] }) := by
  constructor
  · intro hid h1 h2
    subst hid
    simp [queue_message, hobj, h1, h2]
  · intro hcase
    have hcond : ¬ (id.i1 = 0 ∧ id.i2 = 0 ∧
        st.current_frame_id.i1 ≠ 0 ∧ st.current_frame_id.i2 ≠ 0) := by
      rcases hcase with hne | h1 | h2
      · intro ⟨ha, hb, _, _⟩
        exact hne (by cases id; simp_all)
      · intro ⟨_, _, hc, _⟩; exact hc h1
      · intro ⟨_, _, _, hd⟩; exact hd h2
    simp [queue_message, hobj, hcond]

/-- Witness for C3 (amended): both branches at concrete inputs — substitution
with `current_frame_id = (7, 8)`, and verbatim use with
`current_frame_id = (5, 0)`. -/
theorem queue_message_substitution_witness :
    queue_message ⟨"b1", ⟨0, 0, []⟩, [], ⟨7, 8⟩⟩ bot_message_kind.ANALYSIS
        (Json.obj []) ⟨0, 0⟩
      = some ⟨"b1", ⟨0, 0, []⟩,
              [⟨Json.obj [], bot_message_kind.ANALYSIS, ⟨7, 8⟩⟩], ⟨7, 8⟩⟩
    ∧ queue_message ⟨"b1", ⟨0, 0, []⟩, [], ⟨5, 0⟩⟩ bot_message_kind.ANALYSIS
        (Json.obj []) ⟨0, 0⟩
      = some ⟨"b1", ⟨0, 0, []⟩,
              [⟨Json.obj [], bot_message_kind.ANALYSIS, ⟨0, 0⟩⟩], ⟨5, 0⟩⟩ := by
  constructor
  · exact (queue_message_substitution ⟨"b1", ⟨0, 0, []⟩, [], ⟨7, 8⟩⟩
      bot_message_kind.ANALYSIS (Json.obj []) ⟨0, 0⟩ rfl).1 rfl
      (by decide) (by decide)
  · exact (queue_message_substitution ⟨"b1", ⟨0, 0, []⟩, [], ⟨5, 0⟩⟩
      bot_message_kind.ANALYSIS (Json.obj []) ⟨0, 0⟩ rfl).2
      (Or.inr (Or.inr (by decide)))

/-- Splicing lemma for control arrays: processing a concatenated array equals
processing the first part, then the second from the resulting state, with the
outputs concatenated. -/
theorem process_control_array_append (ctrl : Option control_callback) :
    ∀ (l1 l2 : List Json) (st : bot_instance_state),
      process_control_array ctrl st (l1 ++ l2) =
        match process_control_array ctrl st l1 with
        | none => none
        | some (st1, out1) =>
          match process_control_array ctrl st1 l2 with
          | none => none
          | some (st2, out2) => some (st2, out1 ++ out2) := by
  intro l1
  induction l1 with
  | nil =>
    intro l2 st
    simp only [List.nil_append, process_control_array]
    cases process_control_array ctrl st l2 with
    | none => rfl
    | some p => obtain ⟨st2, out2⟩ := p; simp
  | cons m rest ih =>
    intro l2 st
    simp only [List.cons_append, process_control_array]
    cases process_control ctrl st m with
    | none => rfl
    | some p =>
      obtain ⟨st1, out1⟩ := p
      simp only [List.append_eq]
      rw [ih]
      cases process_control_array ctrl st1 rest with
      | none => rfl
      | some q =>
        obtain ⟨st2, out2⟩ := q
        dsimp only
        cases process_control_array ctrl st2 l2 with
        | none => rfl
        | some r => obtain ⟨st3, out3⟩ := r; simp [List.append_assoc]

/-- Counterexample for C2: the claim drops a control object only when its
`"to"` differs from a NON-EMPTY `bot_id`, and says the control callback is
invoked "in every other case".  But with an EMPTY `bot_id` and an object that
does have a `"to"` field, the code (`_bot_id.empty() || msg["to"] != _bot_id`,
bot_instance.cpp:218) also drops the message: the callback — which here would
return the non-null object `{"pong": true}`, so the claim predicts an emitted
CONTROL output — is never invoked and no output is produced. -/
theorem process_control_empty_bot_id_counterexample :
    process_control (some (fun _ => Json.obj [("pong", Json.bool true)]))
        ⟨"", ⟨0, 0, []⟩, [], ⟨0, 0⟩⟩ (Json.obj [("to", Json.str "b1")])
      = some (⟨"", ⟨0, 0, []⟩, [], ⟨0, 0⟩⟩, []) := by
  rfl

/-- Claim C2 (amended): control routing.  Arrays recurse element-wise with the
outputs concatenated; a non-array that is not an object or has no `"to"`
field is dropped; an object with a `"to"` field is also dropped when the bot
id is EMPTY or `"to"` differs from it; only when the bot id is non-empty and
`"to"` equals it is the control callback invoked, and then: a null response
queues nothing; a non-null non-object response is fatal; a non-null object
response gets the inbound `request_id` copied in (when present) and is queued
as CONTROL; in the invoked case the buffer is stamped, emitted and cleared. -/
theorem process_control_routing (ctrl : Option control_callback)
    (st : bot_instance_state) :
    (∀ elems, process_control ctrl st (Json.arr elems) =
      process_control_array ctrl st elems)
    ∧ (∀ msg, msg.is_array = false →
        (msg.is_object = false ∨ msg.find "to" = none) →
        process_control ctrl st msg = some (st, []))
    ∧ (∀ msg t, msg.is_array = false → msg.is_object = true →
        msg.find "to" = some t →
        (st.bot_id = "" ∨ t.eqString st.bot_id = false) →
        process_control ctrl st msg = some (st, []))
    ∧ (∀ msg t f, msg.is_array = false → msg.is_object = true →
        msg.find "to" = some t → t.eqString st.bot_id = true →
        st.bot_id ≠ "" → ctrl = some f →
        ((f msg).is_null = true →
          process_control ctrl st msg = drain_and_emit st)
        ∧ ((f msg).is_null = false → (f msg).is_object = false →
          process_control ctrl st msg = none)
        ∧ ((f msg).is_null = false → (f msg).is_object = true →
          process_control ctrl st msg =
            match queue_message st bot_message_kind.CONTROL
                (match msg.find "request_id" with
                 | some rid => (f msg).set "request_id" rid
                 | none => f msg) ⟨0, 0⟩ with
            | none => none
            | some st2 => drain_and_emit st2)) := by
  have hsingle : ∀ msg, msg.is_array = false →
      process_control ctrl st msg = process_control_single ctrl st msg := by
    intro msg harr
    cases msg <;> first
      | rfl
      | simp [Json.is_array] at harr
  refine ⟨fun elems => rfl, ?_, ?_, ?_⟩
  · intro msg harr hdrop
    rw [hsingle msg harr]
    rcases hdrop with h | h <;> simp [process_control_single, h]
  · intro msg t harr hobj hto hdrop
    rw [hsingle msg harr]
    have h1 : ¬ (¬ msg.is_object ∨ (msg.find "to").isNone) = True := by
      simp [hobj, hto]
    rcases hdrop with h | h <;>
      simp [process_control_single, hobj, hto, h]
  · intro msg t f harr hobj hto hmatch hbot hctrl
    subst hctrl
    rw [hsingle msg harr]
    refine ⟨?_, ?_, ?_⟩
    · intro hnull
      simp [process_control_single, hobj, hto, hmatch, hbot, hnull]
    · intro hnull hrobj
      simp [process_control_single, hobj, hto, hmatch, hbot, hnull, hrobj]
    · intro hnull hrobj
      simp only [process_control_single, hobj, hto, hmatch, hbot, hnull, hrobj]
      simp [hobj, hto, hmatch, hbot, hnull, hrobj]

/-- Witness for C2 (amended): a non-object input is dropped; an object whose
`"to"` is another bot is dropped; a matching `"to"` with a null-returning
callback reaches the drain. -/
theorem process_control_routing_witness :
    process_control (some (fun _ => Json.null)) ⟨"b1", ⟨0, 0, []⟩, [], ⟨0, 0⟩⟩
        (Json.num 5) = some (⟨"b1", ⟨0, 0, []⟩, [], ⟨0, 0⟩⟩, [])
    ∧ process_control (some (fun _ => Json.null)) ⟨"b1", ⟨0, 0, []⟩, [], ⟨0, 0⟩⟩
        (Json.obj [("to", Json.str "b2")])
      = some (⟨"b1", ⟨0, 0, []⟩, [], ⟨0, 0⟩⟩, [])
    ∧ process_control (some (fun _ => Json.null)) ⟨"b1", ⟨0, 0, []⟩, [], ⟨0, 0⟩⟩
        (Json.obj [("to", Json.str "b1")])
      = drain_and_emit ⟨"b1", ⟨0, 0, []⟩, [], ⟨0, 0⟩⟩ := by
  refine ⟨?_, ?_, ?_⟩
  · exact (process_control_routing (some (fun _ => Json.null))
      ⟨"b1", ⟨0, 0, []⟩, [], ⟨0, 0⟩⟩).2.1 (Json.num 5) rfl (Or.inl rfl)
  · exact (process_control_routing (some (fun _ => Json.null))
      ⟨"b1", ⟨0, 0, []⟩, [], ⟨0, 0⟩⟩).2.2.1 (Json.obj [("to", Json.str "b2")])
      (Json.str "b2") rfl rfl rfl (Or.inr (by decide))
  · exact ((process_control_routing (some (fun _ => Json.null))
      ⟨"b1", ⟨0, 0, []⟩, [], ⟨0, 0⟩⟩).2.2.2 (Json.obj [("to", Json.str "b1")])
      (Json.str "b1") (fun _ => Json.null) rfl rfl rfl (by decide) (by decide)
      rfl).1 rfl

/-- The image frames among a list of outputs, in order. -/
def frames_of (outs : List bot_output) : List owned_image_frame :=
  outs.filterMap (fun p =>
    match p with
    | bot_output.frame f => some f
    | _ => none)

theorem frames_of_nil : frames_of [] = [] := rfl

theorem frames_of_cons_frame (f : owned_image_frame) (rest : List bot_output) :
    frames_of (bot_output.frame f :: rest) = f :: frames_of rest := rfl

theorem frames_of_cons_metadata (m : owned_image_metadata)
    (rest : List bot_output) :
    frames_of (bot_output.metadata m :: rest) = frames_of rest := rfl

theorem frames_of_cons_message (m : bot_message) (rest : List bot_output) :
    frames_of (bot_output.message m :: rest) = frames_of rest := rfl

/-- On success, `extract_frames` returns exactly the borrowed views of the
image frames of the batch, non-frame packets filtered out, in order. -/
theorem extract_frames_result (meta : image_metadata) :
    ∀ outs meta' bfs, extract_frames meta outs = some (meta', bfs) →
      bfs = (frames_of outs).map to_image_frame := by
  intro outs
  induction outs generalizing meta with
  | nil =>
    intro meta' bfs h
    simp only [extract_frames, Option.some.injEq, Prod.mk.injEq] at h
    simp [← h.2, frames_of_nil]
  | cons p rest ih =>
    intro meta' bfs h
    cases p with
    | frame f =>
      simp only [extract_frames] at h
      by_cases hg : f.width ≠ meta.width ∨ f.height ≠ meta.height
      · rw [if_pos hg] at h
        by_cases hz : meta.width = 0
        · rw [if_pos hz] at h
          cases hrec : extract_frames ⟨f.width, f.height, f.plane_strides⟩ rest with
          | none => rw [hrec] at h; exact absurd h (by simp)
          | some q =>
            obtain ⟨m2, bfs2⟩ := q
            rw [hrec] at h
            simp only [Option.some.injEq, Prod.mk.injEq] at h
            rw [frames_of_cons_frame, List.map_cons, ← h.2, ih _ _ _ hrec]
        · rw [if_neg hz] at h; exact absurd h (by simp)
      · rw [if_neg hg] at h
        cases hrec : extract_frames meta rest with
        | none => rw [hrec] at h; exact absurd h (by simp)
        | some q =>
          obtain ⟨m2, bfs2⟩ := q
          rw [hrec] at h
          simp only [Option.some.injEq, Prod.mk.injEq] at h
          rw [frames_of_cons_frame, List.map_cons, ← h.2, ih _ _ _ hrec]
    | metadata m =>
      simp only [extract_frames] at h
      rw [frames_of_cons_metadata]
      exact ih _ _ _ h
    | message m =>
      simp only [extract_frames] at h
      rw [frames_of_cons_message]
      exact ih _ _ _ h

/-- A batch without image frames leaves the metadata untouched and extracts
nothing. -/
theorem extract_frames_no_frames (meta : image_metadata) :
    ∀ outs, frames_of outs = [] → extract_frames meta outs = some (meta, []) := by
  intro outs
  induction outs with
  | nil => intro _; rfl
  | cons p rest ih =>
    intro h
    cases p with
    | frame f => rw [frames_of_cons_frame] at h; exact absurd h (by simp)
    | metadata m =>
      rw [frames_of_cons_metadata] at h
      simp only [extract_frames]
      exact ih h
    | message m =>
      rw [frames_of_cons_message] at h
      simp only [extract_frames]
      exact ih h

/-- With the metadata already set (`width ≠ 0`), a successful extraction
keeps the metadata and every frame of the batch matches it exactly. -/
theorem extract_frames_set_metadata (meta : image_metadata) (hset : meta.width ≠ 0) :
    ∀ outs meta' bfs, extract_frames meta outs = some (meta', bfs) →
      meta' = meta ∧
      ∀ f ∈ frames_of outs, f.width = meta.width ∧ f.height = meta.height := by
  intro outs
  induction outs with
  | nil =>
    intro meta' bfs h
    simp only [extract_frames, Option.some.injEq, Prod.mk.injEq] at h
    exact ⟨h.1.symm, by simp [frames_of_nil]⟩
  | cons p rest ih =>
    intro meta' bfs h
    cases p with
    | frame f =>
      simp only [extract_frames] at h
      by_cases hg : f.width ≠ meta.width ∨ f.height ≠ meta.height
      · rw [if_pos hg, if_neg hset] at h
        exact absurd h (by simp)
      · rw [if_neg hg] at h
        push_neg at hg
        cases hrec : extract_frames meta rest with
        | none => rw [hrec] at h; exact absurd h (by simp)
        | some q =>
          obtain ⟨m2, bfs2⟩ := q
          rw [hrec] at h
          simp only [Option.some.injEq, Prod.mk.injEq] at h
          obtain ⟨hmeta, hall⟩ := ih m2 bfs2 hrec
          refine ⟨h.1.symm ▸ hmeta, ?_⟩
          intro g hg2
          rw [frames_of_cons_frame] at hg2
          rcases List.mem_cons.mp hg2 with rfl | hmem
      
          · exact ⟨hg.1, hg.2⟩
          · exact hall g hmem
    | metadata m =>
      simp only [extract_frames] at h
      obtain ⟨hmeta, hall⟩ := ih _ _ h
      exact ⟨hmeta, by rw [frames_of_cons_metadata]; exact hall⟩
    | message m =>
      simp only [extract_frames] at h
      obtain ⟨hmeta, hall⟩ := ih _ _ h
      exact ⟨hmeta, by rw [frames_of_cons_message]; exact hall⟩

/-- With the metadata already set, a frame with differing geometry anywhere in
the batch trips the fatal `CHECK`. -/
theorem extract_frames_geometry_fatal (meta : image_metadata)
    (hset : meta.width ≠ 0) :
    ∀ outs, (∃ f ∈ frames_of outs,
        f.width ≠ meta.width ∨ f.height ≠ meta.height) →
      extract_frames meta outs = none := by
  intro outs
  induction outs with
  | nil => intro h; rw [frames_of_nil] at h; simp at h
  | cons p rest ih =>
    intro h
    cases p with
    | frame g =>
      rw [frames_of_cons_frame] at h
      obtain ⟨f, hf, hdiff⟩ := h
      simp only [extract_frames]
      by_cases hg : g.width ≠ meta.width ∨ g.height ≠ meta.height
      · rw [if_pos hg, if_neg hset]
      · rw [if_neg hg]
        push_neg at hg
        rcases List.mem_cons.mp hf with rfl | hmem
        · rcases hdiff with hd | hd
          · exact absurd hg.1 hd
          · exact absurd hg.2 hd
        · rw [ih ⟨f, hmem, hdiff⟩]
    | metadata m =>
      rw [frames_of_cons_metadata] at h
      simp only [extract_frames]
      exact ih h
    | message m =>
      rw [frames_of_cons_message] at h
      simp only [extract_frames]
      exact ih h

/-- Counterexample for C6: the claim says metadata is latched exactly once by
the first frame and every frame handed to the image callback matches it.  A
first frame of width 0 is recorded without marking the metadata set
(`width == 0` still holds), so a second frame latches AGAIN
(bot_instance.cpp:148-157): here the batch `[(0×5), (3×4)]` completes with
final metadata 3×4 and both frames handed on, yet the first frame's width 0
differs from the final `metadata.width = 3`. -/
theorem extract_frames_double_latch_counterexample :
    (extract_frames ⟨0, 0, [0, 0, 0, 0]⟩
        [bot_output.frame ⟨⟨1, 2⟩, 0, 5, [0, 0, 0, 0], [[], [], [], []]⟩,
         bot_output.frame ⟨⟨3, 4⟩, 3, 4, [9, 0, 0, 0], [[], [], [], []]⟩]).map
        (fun r => (r.1.width, r.1.height, r.2.length))
      = some (3, 4, 2)
    ∧ (0 : Nat) ≠ 3 := by
  exact ⟨by decide, by decide⟩

/-- Starting from unset metadata, with every frame of nonzero width, a
successful extraction latches the first frame's geometry and every frame of
the batch shares that geometry. -/
theorem extract_frames_unset_latch :
    ∀ (outs : List bot_output) (meta : image_metadata), meta.width = 0 →
      (∀ f ∈ frames_of outs, f.width ≠ 0) →
      ∀ meta' bfs f0 frest, extract_frames meta outs = some (meta', bfs) →
        frames_of outs = f0 :: frest →
        meta' = ⟨f0.width, f0.height, f0.plane_strides⟩ ∧
        ∀ f ∈ frames_of outs, f.width = f0.width ∧ f.height = f0.height := by
  intro outs
  induction outs with
  | nil =>
    intro meta _ _ meta' bfs f0 frest _ hsplit
    rw [frames_of_nil] at hsplit
    exact absurd hsplit (by simp)
  | cons p rest ih =>
    intro meta hunset hnz meta' bfs f0 frest hrun hsplit
    cases p with
    | frame g =>
      rw [frames_of_cons_frame] at hsplit
      injection hsplit with hg0 hrest
      subst hg0
      have hgz : g.width ≠ 0 := hnz g (by
        rw [frames_of_cons_frame]; exact List.mem_cons_self _ _)
      have hdiff : g.width ≠ meta.width ∨ g.height ≠ meta.height :=
        Or.inl (by rw [hunset]; exact hgz)
      simp only [extract_frames, if_pos hdiff, if_pos hunset] at hrun
      cases hrec : extract_frames ⟨g.width, g.height, g.plane_strides⟩ rest with
      | none => rw [hrec] at hrun; exact absurd hrun (by simp)
      | some q =>
        obtain ⟨m2, bfs2⟩ := q
        rw [hrec] at hrun
        simp only [Option.some.injEq, Prod.mk.injEq] at hrun
        have hres := extract_frames_set_metadata
          ⟨g.width, g.height, g.plane_strides⟩ hgz rest m2 bfs2 hrec
        constructor
        · rw [← hrun.1, hres.1]
        · intro f hf
          rw [frames_of_cons_frame] at hf
          rcases List.mem_cons.mp hf with rfl | hmem
          · exact ⟨rfl, rfl⟩
          · exact hres.2 f hmem
    | metadata m =>
      simp only [extract_frames] at hrun
      rw [frames_of_cons_metadata] at hsplit
      have hnz' : ∀ f ∈ frames_of rest, f.width ≠ 0 := fun f hf =>
        hnz f (by rw [frames_of_cons_metadata]; exact hf)
      have := ih meta hunset hnz' meta' bfs f0 frest hrun hsplit
      exact ⟨this.1, by rw [frames_of_cons_metadata]; exact this.2⟩
    | message m =>
      simp only [extract_frames] at hrun
      rw [frames_of_cons_message] at hsplit
      have hnz' : ∀ f ∈ frames_of rest, f.width ≠ 0 := fun f hf =>
        hnz f (by rw [frames_of_cons_message]; exact hf)
      have := ih meta hunset hnz' meta' bfs f0 frest hrun hsplit
      exact ⟨this.1, by rw [frames_of_cons_message]; exact this.2⟩

/-- Claim C6 (amended): provided every frame of the batch has nonzero width,
the metadata is latched exactly once, by the first image frame (width, height
and plane strides recorded), every frame of a successfully processed batch
has the latched width and height, and the extracted views are exactly the
frames of the batch; once the metadata is set (`width ≠ 0`), a frame with
differing width or height is a fatal contract violation.  (A frame of width 0
can be recorded without marking the metadata set, which is what the
counterexample exploits.) -/
theorem extract_frames_latch_once (meta : image_metadata)
    (outs : List bot_output) :
    (meta.width = 0 → (∀ f ∈ frames_of outs, f.width ≠ 0) →
      ∀ meta' bfs f0 frest, extract_frames meta outs = some (meta', bfs) →
        frames_of outs = f0 :: frest →
        meta' = ⟨f0.width, f0.height, f0.plane_strides⟩ ∧
        (∀ f ∈ frames_of outs, f.width = f0.width ∧ f.height = f0.height) ∧
        bfs = (frames_of outs).map to_image_frame)
    ∧ (meta.width ≠ 0 →
        (∃ f ∈ frames_of outs, f.width ≠ meta.width ∨ f.height ≠ meta.height) →
        extract_frames meta outs = none) := by
  constructor
  · intro hunset hnz meta' bfs f0 frest hrun hsplit
    have h1 := extract_frames_unset_latch outs meta hunset hnz meta' bfs f0 frest
      hrun hsplit
    exact ⟨h1.1, h1.2, extract_frames_result meta outs meta' bfs hrun⟩
  · intro hset hex
    exact extract_frames_geometry_fatal meta hset outs hex

/-- Witness for C6 (amended): a batch of two 640×480 frames from unset
metadata latches 640×480 once with both frames matching; from set metadata
320×200 a 640×480 frame is fatal. -/
theorem extract_frames_latch_once_witness :
    ((⟨640, 480, [1920, 0, 0, 0]⟩ : image_metadata)
        = ⟨640, 480, [1920, 0, 0, 0]⟩ ∧
      (∀ f ∈ frames_of
          [bot_output.frame ⟨⟨1, 2⟩, 640, 480, [1920, 0, 0, 0], [[], [], [], []]⟩,
           bot_output.frame ⟨⟨3, 4⟩, 640, 480, [1920, 0, 0, 0], [[], [], [], []]⟩],
        f.width = 640 ∧ f.height = 480) ∧
      [to_image_frame ⟨⟨1, 2⟩, 640, 480, [1920, 0, 0, 0], [[], [], [], []]⟩,
       to_image_frame ⟨⟨3, 4⟩, 640, 480, [1920, 0, 0, 0], [[], [], [], []]⟩]
        = (frames_of
          [bot_output.frame ⟨⟨1, 2⟩, 640, 480, [1920, 0, 0, 0], [[], [], [], []]⟩,
           bot_output.frame ⟨⟨3, 4⟩, 640, 480, [1920, 0, 0, 0], [[], [], [], []]⟩]).map
            to_image_frame)
    ∧ extract_frames ⟨320, 200, [960, 0, 0, 0]⟩
        [bot_output.frame ⟨⟨1, 2⟩, 640, 480, [1920, 0, 0, 0], [[], [], [], []]⟩]
      = none := by
  constructor
  · exact (extract_frames_latch_once ⟨0, 0, [0, 0, 0, 0]⟩
      [bot_output.frame ⟨⟨1, 2⟩, 640, 480, [1920, 0, 0, 0], [[], [], [], []]⟩,
       bot_output.frame ⟨⟨3, 4⟩, 640, 480, [1920, 0, 0, 0], [[], [], [], []]⟩]).1
      rfl (by decide)
      ⟨640, 480, [1920, 0, 0, 0]⟩
      [to_image_frame ⟨⟨1, 2⟩, 640, 480, [1920, 0, 0, 0], [[], [], [], []]⟩,
       to_image_frame ⟨⟨3, 4⟩, 640, 480, [1920, 0, 0, 0], [[], [], [], []]⟩]
      ⟨⟨1, 2⟩, 640, 480, [1920, 0, 0, 0], [[], [], [], []]⟩
      [⟨⟨3, 4⟩, 640, 480, [1920, 0, 0, 0], [[], [], [], []]⟩]
      (by decide) rfl
  · exact (extract_frames_latch_once ⟨320, 200, [960, 0, 0, 0]⟩
      [bot_output.frame ⟨⟨1, 2⟩, 640, 480, [1920, 0, 0, 0], [[], [], [], []]⟩]).2
      (by decide)
      ⟨⟨⟨1, 2⟩, 640, 480, [1920, 0, 0, 0], [[], [], [], []]⟩,
        by decide, Or.inl (by decide)⟩

/-- Claim C10: a batch containing no image frames passes through unchanged —
the image callback is not invoked (the result does not depend on `img` at
all) and the message buffer is neither stamped nor emitted (the state is
returned untouched, buffered messages included). -/
theorem process_packets_no_frames (img : image_callback)
    (st : bot_instance_state) (pp : List owned_image_packet)
    (h : frames_of (pp.map packet_to_output) = []) :
    process_packets img st pp = some (st, pp.map packet_to_output) := by
  simp only [process_packets, extract_frames_no_frames st.image_metadata _ h]
  rfl

/-- Witness for C10: a batch holding a single metadata packet and an image
callback that would queue an ANALYSIS message if it ran: the packet passes
through alone and the previously buffered DEBUG message stays buffered. -/
theorem process_packets_no_frames_witness :
    process_packets (fun _ => [(bot_message_kind.ANALYSIS, Json.obj [], ⟨0, 0⟩)])
        ⟨"b1", ⟨0, 0, []⟩, [⟨Json.obj [], bot_message_kind.DEBUG, ⟨-1, 0⟩⟩], ⟨0, 0⟩⟩
        [owned_image_packet.metadata ⟨"vp9", []⟩]
      = some (⟨"b1", ⟨0, 0, []⟩,
               [⟨Json.obj [], bot_message_kind.DEBUG, ⟨-1, 0⟩⟩], ⟨0, 0⟩⟩,
              [bot_output.metadata ⟨"vp9", []⟩]) := by
  exact process_packets_no_frames
    (fun _ => [(bot_message_kind.ANALYSIS, Json.obj [], ⟨0, 0⟩)])
    ⟨"b1", ⟨0, 0, []⟩, [⟨Json.obj [], bot_message_kind.DEBUG, ⟨-1, 0⟩⟩], ⟨0, 0⟩⟩
    [owned_image_packet.metadata ⟨"vp9", []⟩] rfl

/-- Counterexample for C4: the claim says the output is the batch followed by
the messages accumulated in the buffer DURING the callback, and that the
callback is dispatched with the extracted frames of EVERY batch.  Both parts
fail.  First run: the callback queues nothing, yet the output has 2 elements
— the frame plus a message that was already buffered BEFORE the batch (the
code drains the whole `_message_buffer`, bot_instance.cpp:195).  Second run:
a frame-free batch with a callback that would queue an ANALYSIS message
produces only the packet — the callback is skipped entirely
(bot_instance.cpp:186), where the claim predicts it runs on an empty span and
its message is emitted. -/
theorem process_packets_buffer_residue_counterexample :
    (process_packets (fun _ => [])
        ⟨"b1", ⟨0, 0, [0, 0, 0, 0]⟩,
          [⟨Json.obj [], bot_message_kind.DEBUG, ⟨-1, 0⟩⟩], ⟨0, 0⟩⟩
        [owned_image_packet.frame ⟨⟨1, 2⟩, 640, 480, [1920, 0, 0, 0],
          [[], [], [], []]⟩]).map (fun r => r.2.length)
      = some 2
    ∧ (process_packets (fun _ => [(bot_message_kind.ANALYSIS, Json.obj [], ⟨0, 0⟩)])
        ⟨"b1", ⟨0, 0, []⟩, [], ⟨0, 0⟩⟩
        [owned_image_packet.metadata ⟨"vp9", []⟩]).map (fun r => r.2.length)
      = some 1 := by
  exact ⟨by decide, by decide⟩

/-- Claim C4 (amended): for every successfully processed batch, the packets
pass through to the output verbatim in arrival order; the image callback is
dispatched with exactly the borrowed views of the image frames of the batch
(non-frame packets filtered out) provided at least one frame extracts —
otherwise it is not dispatched; and the output is the packets followed by ALL
messages in the buffer as of the callback's return (messages buffered before
the batch included), stamped, with the buffer then cleared. -/
theorem process_packets_correct (img : image_callback)
    (st st' : bot_instance_state) (pp : List owned_image_packet)
    (outs : List bot_output)
    (h : process_packets img st pp = some (st', outs)) :
    ∃ meta' bframes,
      extract_frames st.image_metadata (pp.map packet_to_output)
        = some (meta', bframes)
      ∧ bframes = (frames_of (pp.map packet_to_output)).map to_image_frame
      ∧ ((bframes = [] ∧ st' = { st with image_metadata := meta' }
            ∧ outs = pp.map packet_to_output)
         ∨ (bframes ≠ [] ∧ ∃ st2 st3,
              apply_queue_calls { st with image_metadata := meta' } (img bframes)
                = some st2
              ∧ prepare_message_buffer_for_downstream st2 = some st3
              ∧ st' = { st3 with message_buffer := [] }
              ∧ outs = pp.map packet_to_output
                  ++ st3.message_buffer.map bot_output.message)) := by
  simp only [process_packets] at h
  cases hx : extract_frames st.image_metadata (pp.map packet_to_output) with
  | none => rw [hx] at h; exact absurd h (by simp)
  | some q =>
    obtain ⟨meta', bframes⟩ := q
    rw [hx] at h
    dsimp only at h
    refine ⟨meta', bframes, rfl,
      extract_frames_result st.image_metadata _ meta' bframes hx, ?_⟩
    by_cases hb : bframes.isEmpty
    · left
      rw [if_pos hb] at h
      simp only [Option.some.injEq, Prod.mk.injEq] at h
      exact ⟨List.isEmpty_iff.mp hb, h.1.symm, h.2.symm⟩
    · right
      rw [if_neg hb] at h
      refine ⟨fun hnil => hb (by rw [hnil]; rfl), ?_⟩
      cases hq : apply_queue_calls { st with image_metadata := meta' } (img bframes) with
      | none => rw [hq] at h; exact absurd h (by simp)
      | some st2 =>
        rw [hq] at h
        dsimp only at h
        cases hp : prepare_message_buffer_for_downstream st2 with
        | none => rw [hp] at h; exact absurd h (by simp)
        | some st3 =>
          rw [hp] at h
          simp only [Option.some.injEq, Prod.mk.injEq] at h
          exact ⟨st2, st3, rfl, hp, h.1.symm, h.2.symm⟩

/-- Witness for C4 (amended): one 640×480 frame processed by a callback that
queues one ANALYSIS message; the run succeeds, so the extraction, dispatch
and emission decomposition holds at this input. -/
theorem process_packets_correct_witness :
    ∃ meta' bframes,
      extract_frames
          (bot_instance_state.image_metadata ⟨"b1", ⟨0, 0, [0, 0, 0, 0]⟩, [], ⟨0, 0⟩⟩)
          ([owned_image_packet.frame
              ⟨⟨1, 2⟩, 640, 480, [1920, 0, 0, 0], [[], [], [], []]⟩].map
            packet_to_output)
        = some (meta', bframes)
      ∧ bframes = (frames_of
          ([owned_image_packet.frame
              ⟨⟨1, 2⟩, 640, 480, [1920, 0, 0, 0], [[], [], [], []]⟩].map
            packet_to_output)).map to_image_frame
      ∧ ((bframes = []
            ∧ (⟨"b1", ⟨640, 480, [1920, 0, 0, 0]⟩, [], ⟨0, 0⟩⟩ : bot_instance_state)
              = { (⟨"b1", ⟨0, 0, [0, 0, 0, 0]⟩, [], ⟨0, 0⟩⟩ : bot_instance_state)
                  with image_metadata := meta' }
            ∧ ([bot_output.frame ⟨⟨1, 2⟩, 640, 480, [1920, 0, 0, 0], [[], [], [], []]⟩,
                bot_output.message
                  ⟨Json.obj [("i", Json.arr [Json.num 0, Json.num 0]),
                             ("from", Json.str "b1")],
                    bot_message_kind.ANALYSIS, ⟨0, 0⟩⟩]
                : List bot_output)
              = [owned_image_packet.frame
                  ⟨⟨1, 2⟩, 640, 480, [1920, 0, 0, 0], [[], [], [], []]⟩].map
                  packet_to_output)
         ∨ (bframes ≠ [] ∧ ∃ st2 st3,
              apply_queue_calls
                  { (⟨"b1", ⟨0, 0, [0, 0, 0, 0]⟩, [], ⟨0, 0⟩⟩ : bot_instance_state)
                    with image_metadata := meta' }
                  ((fun _ => [(bot_message_kind.ANALYSIS, Json.obj [], (⟨0, 0⟩ : frame_id))])
                    bframes)
                = some st2
              ∧ prepare_message_buffer_for_downstream st2 = some st3
              ∧ (⟨"b1", ⟨640, 480, [1920, 0, 0, 0]⟩, [], ⟨0, 0⟩⟩ : bot_instance_state)
                = { st3 with message_buffer := [] }
              ∧ ([bot_output.frame ⟨⟨1, 2⟩, 640, 480, [1920, 0, 0, 0], [[], [], [], []]⟩,
                  bot_output.message
                    ⟨Json.obj [("i", Json.arr [Json.num 0, Json.num 0]),
                               ("from", Json.str "b1")],
                      bot_message_kind.ANALYSIS, ⟨0, 0⟩⟩]
                  : List bot_output)
                = [owned_image_packet.frame
                    ⟨⟨1, 2⟩, 640, 480, [1920, 0, 0, 0], [[], [], [], []]⟩].map
                    packet_to_output
                  ++ st3.message_buffer.map bot_output.message)) := by
  exact process_packets_correct
    (fun _ => [(bot_message_kind.ANALYSIS, Json.obj [], ⟨0, 0⟩)])
    ⟨"b1", ⟨0, 0, [0, 0, 0, 0]⟩, [], ⟨0, 0⟩⟩
    ⟨"b1", ⟨640, 480, [1920, 0, 0, 0]⟩, [], ⟨0, 0⟩⟩
    [owned_image_packet.frame ⟨⟨1, 2⟩, 640, 480, [1920, 0, 0, 0], [[], [], [], []]⟩]
    [bot_output.frame ⟨⟨1, 2⟩, 640, 480, [1920, 0, 0, 0], [[], [], [], []]⟩,
     bot_output.message
       ⟨Json.obj [("i", Json.arr [Json.num 0, Json.num 0]), ("from", Json.str "b1")],
         bot_message_kind.ANALYSIS, ⟨0, 0⟩⟩]
    rfl

/-- Pumping the shutdown generator with enough fuel emits every buffered
message, one per pull, and ends with an empty buffer. -/
theorem generator_run_aux_spec :
    ∀ (n : Nat) (st : bot_instance_state), st.message_buffer.length ≤ n →
      (generator_run_aux n st).1 = st.message_buffer.map bot_output.message ∧
      (generator_run_aux n st).2.message_buffer = [] := by
  intro n
  induction n with
  | zero =>
    intro st hlen
    have hnil : st.message_buffer = [] := List.eq_nil_of_length_eq_zero
      (Nat.le_zero.mp hlen)
    simp [generator_run_aux, hnil]
  | succ n ih =>
    intro st hlen
    cases hb : st.message_buffer with
    | nil => simp [generator_run_aux, shutdown_pump, hb]
    | cons m rest =>
      have hrest : ({ st with message_buffer := rest } :
          bot_instance_state).message_buffer.length ≤ n := by
        have := hlen
        rw [hb] at this
        simpa using Nat.lt_succ_iff.mp (Nat.lt_of_lt_of_le
          (Nat.lt_succ_of_le (Nat.le_refl _)) this)
      have hrec := ih { st with message_buffer := rest } hrest
      simp [generator_run_aux, shutdown_pump, hb, hrec.1, hrec.2]

/-- Claim C5: the bot's output publisher is the concatenation of the main
transformed stream and the stateful shutdown generator; the generator's init
(first pull) runs `shutdown_init` — dispatching `{action: "shutdown"}` to the
control callback when one exists, queueing a non-null response as DEBUG and
stamping the buffer — and thereafter each pull emits exactly one buffered
message until the buffer is empty, at which point the generator completes
(`shutdown_pump` returns `none`). -/
theorem run_bot_concat_shutdown (img : image_callback)
    (ctrl : Option control_callback) (inputs : List bot_input)
    (st st1 st2 : bot_instance_state) (main_out : List bot_output)
    (h1 : process_inputs img ctrl inputs st = some (st1, main_out))
    (h2 : shutdown_init ctrl st1 = some st2) :
    run_bot img ctrl inputs st
      = some (main_out ++ st2.message_buffer.map bot_output.message)
    ∧ (generator_run st2).1 = st2.message_buffer.map bot_output.message
    ∧ shutdown_pump (generator_run st2).2 = none := by
  have hgen := generator_run_aux_spec st2.message_buffer.length st2 (Nat.le_refl _)
  have hrun1 : (generator_run st2).1 = st2.message_buffer.map bot_output.message := by
    unfold generator_run; exact hgen.1
  have hrun2 : (generator_run st2).2.message_buffer = [] := by
    unfold generator_run; exact hgen.2
  have hpump : shutdown_pump (generator_run st2).2 = none := by
    unfold shutdown_pump
    rw [hrun2]
  refine ⟨?_, hrun1, hpump⟩
  unfold run_bot
  rw [h1]
  dsimp only
  rw [h2]
  dsimp only
  rw [hrun1]

/-- Witness for C5: no inputs, a control callback answering the shutdown
command with `{"bye": true}`: the run emits exactly the stamped DEBUG
response and the generator completes. -/
theorem run_bot_concat_shutdown_witness :
    run_bot (fun _ => []) (some (fun _ => Json.obj [("bye", Json.bool true)])) []
        ⟨"b1", ⟨0, 0, []⟩, [], ⟨0, 0⟩⟩
      = some ([] ++ (⟨"b1", ⟨0, 0, []⟩,
          [⟨Json.obj [("bye", Json.bool true), ("i", Json.arr [Json.num 0, Json.num 0]),
                      ("from", Json.str "b1")],
            bot_message_kind.DEBUG, ⟨0, 0⟩⟩],
          ⟨0, 0⟩⟩ : bot_instance_state).message_buffer.map bot_output.message) := by
  exact (run_bot_concat_shutdown (fun _ => [])
    (some (fun _ => Json.obj [("bye", Json.bool true)])) []
    ⟨"b1", ⟨0, 0, []⟩, [], ⟨0, 0⟩⟩
    ⟨"b1", ⟨0, 0, []⟩, [], ⟨0, 0⟩⟩
    ⟨"b1", ⟨0, 0, []⟩,
      [⟨Json.obj [("bye", Json.bool true), ("i", Json.arr [Json.num 0, Json.num 0]),
                  ("from", Json.str "b1")],
        bot_message_kind.DEBUG, ⟨0, 0⟩⟩],
      ⟨0, 0⟩⟩
    [] rfl rfl).1

/-- Claim C7: `configure` with no control callback is a no-op on a null
configuration and aborts on a non-null one; with a callback it dispatches
`{action: "configure", body: <cfg or {}>}` synchronously and enqueues any
non-null response as a DEBUG message (via `queue_message`, whose own `CHECK`
makes a non-object response fatal). -/
theorem configure_spec (ctrl : Option control_callback) (config : Json)
    (st : bot_instance_state) :
    (ctrl = none → config.is_null = true → configure ctrl config st = some st)
    ∧ (ctrl = none → config.is_null = false → configure ctrl config st = none)
    ∧ (∀ f, ctrl = some f →
        configure ctrl config st =
          (if (f (build_configure_command
                (if config.is_null then Json.obj [] else config))).is_null
           then some st
           else queue_message st bot_message_kind.DEBUG
             (f (build_configure_command
               (if config.is_null then Json.obj [] else config))) ⟨0, 0⟩)) := by
  refine ⟨?_, ?_, ?_⟩
  · intro hc hn
    subst hc
    simp [configure, hn]
  · intro hc hn
    subst hc
    simp [configure, hn]
  · intro f hc
    subst hc
    by_cases hn : config.is_null
    · simp [configure, hn]
    · simp [configure, hn]

/-- Witness for C7: a null configuration with no callback is a no-op; a
non-null one with no callback aborts; a callback answering `null` leaves the
state unchanged. -/
theorem configure_spec_witness :
    configure none Json.null ⟨"b1", ⟨0, 0, []⟩, [], ⟨0, 0⟩⟩
      = some ⟨"b1", ⟨0, 0, []⟩, [], ⟨0, 0⟩⟩
    ∧ configure none (Json.num 1) ⟨"b1", ⟨0, 0, []⟩, [], ⟨0, 0⟩⟩ = none
    ∧ configure (some (fun _ => Json.null)) (Json.obj [("k", Json.num 1)])
        ⟨"b1", ⟨0, 0, []⟩, [], ⟨0, 0⟩⟩
      = some ⟨"b1", ⟨0, 0, []⟩, [], ⟨0, 0⟩⟩ := by
  refine ⟨?_, ?_, ?_⟩
  · exact (configure_spec none Json.null ⟨"b1", ⟨0, 0, []⟩, [], ⟨0, 0⟩⟩).1 rfl rfl
  · exact (configure_spec none (Json.num 1) ⟨"b1", ⟨0, 0, []⟩, [], ⟨0, 0⟩⟩).2.1 rfl rfl
  · exact ((configure_spec (some (fun _ => Json.null)) (Json.obj [("k", Json.num 1)])
      ⟨"b1", ⟨0, 0, []⟩, [], ⟨0, 0⟩⟩).2.2 (fun _ => Json.null) rfl).trans rfl

/-! Helper lemmas for the decimal digit rendering and the C scanners. -/

/-- A rendered digit character is a decimal digit and is none of the
characters the scanner treats specially. -/
theorem digit_char_good (d : Nat) (h : d < 10) :
    (Char.ofNat (48 + d)).isDigit = true ∧ cIsSpace (Char.ofNat (48 + d)) = false ∧
    Char.ofNat (48 + d) ≠ '-' ∧ Char.ofNat (48 + d) ≠ '+' := by
  interval_cases d <;> exact ⟨by decide, by decide, by decide, by decide⟩

theorem digit_char_toNat (d : Nat) (h : d < 10) :
    (Char.ofNat (48 + d)).toNat - 48 = d := by
  interval_cases d <;> decide

theorem natDigitsAux_good (fuel : Nat) :
    ∀ n, n < fuel → ∀ c ∈ natDigitsAux fuel n,
      c.isDigit = true ∧ cIsSpace c = false ∧ c ≠ '-' ∧ c ≠ '+' := by
  induction fuel with
  | zero => intro n h; omega
  | succ fuel ih =>
    intro n h c hc
    rw [natDigitsAux] at hc
    by_cases hn : n < 10
    · rw [if_pos hn] at hc
      simp only [List.mem_singleton] at hc
      subst hc
      exact digit_char_good (n % 10) (Nat.mod_lt n (by omega))
    · rw [if_neg hn] at hc
      rcases List.mem_append.mp hc with hmem | hmem
      · have hdiv : n / 10 < fuel := by
          have h1 : n / 10 < n := Nat.div_lt_self (by omega) (by omega)
          omega
        exact ih (n / 10) hdiv c hmem
      · simp only [List.mem_singleton] at hmem
        subst hmem
        exact digit_char_good (n % 10) (Nat.mod_lt n (by omega))

theorem digitsToNat_append_one (l : List Char) (c : Char) :
    digitsToNat (l ++ [c]) = digitsToNat l * 10 + (c.toNat - 48) := by
  simp [digitsToNat, List.foldl_append]

theorem natDigitsAux_value (fuel : Nat) :
    ∀ n, n < fuel → digitsToNat (natDigitsAux fuel n) = n := by
  induction fuel with
  | zero => intro n h; omega
  | succ fuel ih =>
    intro n h
    rw [natDigitsAux]
    by_cases hn : n < 10
    · rw [if_pos hn]
      have hc := digit_char_toNat (n % 10) (Nat.mod_lt n (by omega))
      simp only [digitsToNat, List.foldl]
      omega
    · rw [if_neg hn]
      rw [digitsToNat_append_one]
      have hdiv : n / 10 < fuel := by
        have h1 : n / 10 < n := Nat.div_lt_self (by omega) (by omega)
        omega
      rw [ih (n / 10) hdiv, digit_char_toNat (n % 10) (Nat.mod_lt n (by omega))]
      omega

theorem natDigitsAux_ne_nil (fuel n : Nat) (h : n < fuel) :
    natDigitsAux fuel n ≠ [] := by
  cases fuel with
  | zero => omega
  | succ fuel =>
    rw [natDigitsAux]
    by_cases hn : n < 10
    · rw [if_pos hn]; simp
    · rw [if_neg hn]; simp

theorem natDigits_good (n : Nat) :
    ∀ c ∈ natDigits n, c.isDigit = true ∧ cIsSpace c = false ∧ c ≠ '-' ∧ c ≠ '+' :=
  natDigitsAux_good (n + 1) n (Nat.lt_succ_self n)

theorem natDigits_value (n : Nat) : digitsToNat (natDigits n) = n :=
  natDigitsAux_value (n + 1) n (Nat.lt_succ_self n)

theorem natDigits_ne_nil (n : Nat) : natDigits n ≠ [] :=
  natDigitsAux_ne_nil (n + 1) n (Nat.lt_succ_self n)

theorem takeWhile_digits_append (rest : List Char)
    (hr : (headChar rest).isDigit = false) :
    ∀ xs, (∀ c ∈ xs, c.isDigit = true) →
      (xs ++ rest).takeWhile Char.isDigit = xs ∧
      (xs ++ rest).dropWhile Char.isDigit = rest := by
  intro xs
  induction xs with
  | nil =>
    intro _
    constructor
    · cases rest with
      | nil => rfl
      | cons c t =>
        simp only [headChar, List.headD] at hr
        simp [List.takeWhile, hr]
    · cases rest with
      | nil => rfl
      | cons c t =>
        simp only [headChar, List.headD] at hr
        simp [List.dropWhile, hr]
  | cons c t ih =>
    intro hall
    have hc : c.isDigit = true := hall c (List.mem_cons_self _ _)
    have ht := ih (fun x hx => hall x (List.mem_cons_of_mem _ hx))
    constructor
    · simp [List.takeWhile, hc, ht.1]
    · simp [List.dropWhile, hc, ht.2]

/-- Scanning a rendered number followed by a non-digit remainder consumes
exactly the digits. -/
theorem scanInteger_digits (n : Nat) (rest : List Char)
    (hr : (headChar rest).isDigit = false) :
    scanInteger (natDigits n ++ rest) = ⟨n, false, rest, true⟩ := by
  obtain ⟨d, xs, hxs⟩ := List.exists_cons_of_ne_nil (natDigits_ne_nil n)
  have hgood := natDigits_good n
  have hd := hgood d (by rw [hxs]; exact List.mem_cons_self _ _)
  have hsplit := takeWhile_digits_append rest hr (natDigits n)
    (fun c hc => (hgood c hc).1)
  unfold scanInteger
  rw [hxs]
  simp only [List.cons_append]
  rw [List.dropWhile_cons_of_neg (by rw [hd.2.1]; simp)]
  unfold stripSign
  simp only [if_neg hd.2.2.1, if_neg hd.2.2.2]
  rw [← List.cons_append, ← hxs]
  rw [hsplit.1, hsplit.2]
  have hne : (natDigits n).isEmpty = false := by
    rw [hxs]; rfl
  rw [hne]
  simp [natDigits_value n]

/-- Claim C8: round-trip — for every valid position (32-bit `gen`, 64-bit
`pos`), parsing the rendered `"<gen>:<pos>"` string returns the same
position. -/
theorem channel_position_round_trip (p : channel_position)
    (hg : p.gen < 2 ^ 32) (hp : p.pos < 2 ^ 64) :
    channel_position.parse (channel_position.str p) = some p := by
  have hscan1 : scanInteger (natDigits p.gen ++ ':' :: natDigits p.pos)
      = ⟨p.gen, false, ':' :: natDigits p.pos, true⟩ :=
    scanInteger_digits p.gen (':' :: natDigits p.pos) rfl
  have h1 : strtoll (natDigits p.gen ++ ':' :: natDigits p.pos)
      = ((p.gen : Int), ':' :: natDigits p.pos, true) := by
    unfold strtoll
    rw [hscan1]
    have hlit : ¬ (9223372036854775808 ≤ p.gen) := by omega
    simp [hlit]
  have hscan2 : scanInteger (natDigits p.pos) = ⟨p.pos, false, [], true⟩ := by
    have := scanInteger_digits p.pos [] (by decide)
    rwa [List.append_nil] at this
  have h2 : strtoull (natDigits p.pos) = (p.pos, [], true) := by
    unfold strtoull
    rw [hscan2]
    have hlit : ¬ (18446744073709551615 < p.pos) := by omega
    simp [hlit]
  unfold channel_position.parse channel_position.str
  rw [h1]
  dsimp only
  rw [if_neg (by
    simp only [not_not]
    have : (p.gen : Int) ≤ ((4294967295 : Nat) : Int) := by
      exact_mod_cast Nat.le_of_lt_succ (by omega)
    simpa using this)]
  rw [if_neg (by simp)]
  rw [if_neg (by simp [headChar])]
  simp only [List.drop_succ_cons, List.drop_zero]
  rw [h2]
  dsimp only
  rw [if_neg (by simp [headChar])]
  have hemod : (((p.gen : Int)) % ((2 : Int) ^ 32)).toNat = p.gen := by
    rw [Int.emod_eq_of_lt (by positivity) (by exact_mod_cast hg)]
    simp
  rw [hemod]

/-- Witness for C8: the concrete position `3:7` round-trips. -/
theorem channel_position_round_trip_witness :
    channel_position.parse (channel_position.str ⟨3, 7⟩) = some ⟨3, 7⟩ :=
  channel_position_round_trip ⟨3, 7⟩ (by decide) (by decide)

/-- The remainder returned by `stripSign` is a suffix of its input. -/
theorem stripSign_suffix (l : List Char) : (stripSign l).2 <:+ l := by
  cases l with
  | nil => exact List.suffix_refl []
  | cons c t =>
    unfold stripSign
    by_cases h1 : c = '-'
    · simp only [if_pos h1]
      exact List.suffix_cons c t
    · by_cases h2 : c = '+'
      · simp only [if_neg h1, if_pos h2]
        exact List.suffix_cons c t
      · simp only [if_neg h1, if_neg h2]
        exact List.suffix_refl _

/-- The `endptr` position reported by the scanner is a suffix of the input
string. -/
theorem scanInteger_rest_suffix (s : List Char) : (scanInteger s).rest <:+ s := by
  unfold scanInteger
  by_cases he : ((stripSign (s.dropWhile cIsSpace)).2.takeWhile Char.isDigit).isEmpty
  · simp only [if_pos he]
    exact List.suffix_refl s
  · simp only [if_neg he]
    calc (stripSign (s.dropWhile cIsSpace)).2.dropWhile Char.isDigit
        <:+ (stripSign (s.dropWhile cIsSpace)).2 := List.dropWhile_suffix _
      _ <:+ s.dropWhile cIsSpace := stripSign_suffix _
      _ <:+ s := List.dropWhile_suffix _

/-- Counterexample for C9: `"-1:2"` is malformed — `-1` is not a 32-bit
unsigned integer — yet `parse` does not return `(0,0)`: `strtoll` accepts the
sign, the `CHECK_LE` passes (signed comparison), and the cast to `uint32_t`
wraps, yielding `(4294967295, 2)`. -/
theorem channel_position_parse_malformed_counterexample :
    channel_position.parse ['-', '1', ':', '2'] = some ⟨4294967295, 2⟩
    ∧ some (⟨4294967295, 2⟩ : channel_position) ≠ some ⟨0, 0⟩ := by
  exact ⟨by decide, by decide⟩

/-- Claim C9 (amended): `parse` returns `(0,0)` when its own format checks
fail — no digits converted for `gen`, the character after the generation is
not `':'`, or trailing characters after the position — but the underlying
`strtoll`/`strtoull` accept leading whitespace and signs and clamp
out-of-range values, so some malformed strings parse to other positions (see
the counterexample) and a generation above `uint32` max aborts.  In
particular every string without a `':'` whose leading integer passes the
`CHECK_LE` parses to `(0,0)`. -/
theorem channel_position_parse_no_colon (s : List Char)
    (hc : ':' ∉ s) (hg : (strtoll s).1 ≤ 4294967295) :
    channel_position.parse s = some ⟨0, 0⟩ := by
  unfold channel_position.parse
  rw [if_neg (by simpa using hg)]
  by_cases hconv : (strtoll s).2.2
  · rw [if_neg (by simpa using hconv)]
    rw [if_pos ?hcolon]
    case hcolon =>
      intro heq
      have hsuffix : (strtoll s).2.1 <:+ s := by
        unfold strtoll
        exact scanInteger_rest_suffix s
      cases hrest : (strtoll s).2.1 with
      | nil =>
        rw [hrest] at heq
        exact absurd heq (by decide)
      | cons c t =>
        rw [hrest] at heq
        simp only [headChar, List.headD] at heq
        subst heq
        exact hc (hsuffix.subset (by rw [hrest]; exact List.mem_cons_self _ _))
  · rw [if_pos (by simpa using hconv)]

/-- Witness for C9 (amended): the colon-free string `"abc"` parses to
`(0,0)`. -/
theorem channel_position_parse_no_colon_witness :
    channel_position.parse ['a', 'b', 'c'] = some ⟨0, 0⟩ :=
  channel_position_parse_no_colon ['a', 'b', 'c'] (by decide) (by decide)
